import Mathlib

set_option synthInstance.maxSize 4000

/-!
Verification of the read-through metadata cache layer of the
`terraform-provider-github` repository (files `cache_envs_v4.go`,
`cache_envs_secret_v4.go`, `cache_team_repo_v4.go`, `cache_repos_v4.go`,
and the cache-touching parts of `resource_github_team_repository.go`).

Modelling conventions:
* Go maps become association tables (`Table`); a `nil` Go map becomes `none`
  in an `Option Table` field, a present key with a `nil` sub-map never occurs
  because the code only ever stores freshly made maps.
* The GraphQL client (`o.v4client.Query`) is modelled by passing the sequence
  of responses the remote would deliver: a list of `Except ClientErr page` for
  the paginated list query, and a single `Except ClientErr node` for a point
  query.  A result of `none` from a load or get means the supplied response
  list was exhausted while the code would have issued another request; all
  theorems below are about complete executions (`some` results).
* Each function returns, besides its Go results, ghost observations of the
  requests it issued: the list of cursors sent with the list queries, and a
  flag recording whether a single-item point query was issued.  These are
  observations at the client boundary, not state of the program.
* `sync.Once` values become `Bool` flags (`...OnceDone`) on the owner state;
  sequentially, `once.Do f` runs `f` exactly when the flag is still false.
* Machine integers (`int`, `int64`, `githubv4.Int`) are modelled as `Int`;
  none of the cache logic performs arithmetic on them, they are only copied.
-/

/-- Association table modelling a Go `map`; later bindings shadow nothing
because `insert` removes the old binding first (Go assignment overwrites). -/
abbrev Table (α β : Type) : Type := List (α × β)

namespace Table

/-- Lookup, modelling Go map indexing `m[k]` (missing key gives the zero
value, here `none`). -/
def find? {α β : Type} [DecidableEq α] : Table α β → α → Option β
  | [], _ => none
  | (k, v) :: t, a => if k = a then some v else find? t a

/-- Remove every binding of key `k`, modelling Go `delete(m, k)`. -/
def erase {α β : Type} [DecidableEq α] (t : Table α β) (k : α) : Table α β :=
  t.filter (fun p => decide (p.1 ≠ k))

/-- Insert (overwrite) a binding, modelling Go map assignment `m[k] = v`. -/
def insert {α β : Type} [DecidableEq α] (t : Table α β) (k : α) (v : β) : Table α β :=
  (k, v) :: t.erase k

end Table

/-- Outcome of one remote query at the client boundary.  A GraphQL
"Could not resolve to a Repository" style response is delivered by
`githubv4.Client.Query` as an error; `resourceDoesNotExist` marks that case
so the error taxonomy of the cache can be examined. -/
inductive ClientErr : Type where
  | resourceDoesNotExist : ClientErr
  | other : String → ClientErr
  deriving DecidableEq

/-- Errors produced by the cache layer; one constructor per `fmt.Errorf`
site plus `clientErr` for an error returned unwrapped
(`loadAllReposV4` returns the raw client error). -/
inductive GoError : Type where
  | clientErr : ClientErr → GoError
  | failedToLoadEnvs : String → ClientErr → GoError
  | envNotFound : String → String → GoError
  | failedToLoadEnvSecrets : String → String → ClientErr → GoError
  | envSecretNotFound : String → String → String → GoError
  | failedToLoadTeamRepos : Int → ClientErr → GoError
  | teamRepoNotFound : Int → String → GoError
  | failedToFetchRepo : String → ClientErr → GoError
  deriving DecidableEq

/-- True exactly for the structured entity-not-found outcomes of the caches
(the `... not found in ...` / `does not have access` errors). -/
def GoError.isNotFoundSignal : GoError → Bool
  | GoError.envNotFound _ _ => true
  | GoError.envSecretNotFound _ _ _ => true
  | GoError.teamRepoNotFound _ _ => true
  | _ => false

/-- True exactly for the outcomes that carry a failed remote query
(raw or wrapped by a `failed to load ...` / `failed to fetch ...` message). -/
def GoError.isRemoteQueryError : GoError → Bool
  | GoError.clientErr _ => true
  | GoError.failedToLoadEnvs _ _ => true
  | GoError.failedToLoadEnvSecrets _ _ _ => true
  | GoError.failedToLoadTeamRepos _ _ => true
  | GoError.failedToFetchRepo _ _ => true
  | _ => false

/-- One page of a paginated list query: the `Nodes`, `PageInfo.HasNextPage`
and `PageInfo.EndCursor` of the GraphQL response. -/
structure PageOf (ν : Type) : Type where
  nodes : List ν
  hasNextPage : Bool
  endCursor : String
  deriving DecidableEq

/--
The pagination driver shared by the four bulk loads (the `for { ... Query
... insert nodes ...; if !HasNextPage break; cursor = EndCursor }` loop of
`cache_envs_v4.go:84-115`, `cache_envs_secret_v4.go:71-100`,
`cache_team_repo_v4.go:54-70`, `cache_repos_v4.go:137-194`), parameterised by
the per-node insertion `ins`.  `responses` is the sequence of pages the
remote delivers to the successive queries; the result carries the
accumulated cache, the aborting error (if any; the failing response delivers
no records, and the code returns before the insertion loop), and the ghost
list of cursors sent with each issued request.  `none` means the response
list ran out while the loop would have queried again.
-/
def pageLoop {τ ν : Type} (ins : τ → ν → τ) :
    τ → List (Except ClientErr (PageOf ν)) → Option String →
    Option (τ × Option ClientErr × List (Option String))
  | _, [], _ => none
  | acc, Except.error e :: _, cur => some (acc, some e, [cur])
  | acc, Except.ok p :: rest, cur =>
    let acc2 := p.nodes.foldl ins acc
    if p.hasNextPage then
      match pageLoop ins acc2 rest (some p.endCursor) with
      | none => none
      | some (t, e, curs) => some (t, e, cur :: curs)
    else
      some (acc2, none, [cur])

/-- The cache contents after applying the node insertions of a list of pages
in page order. -/
def applyPages {τ ν : Type} (ins : τ → ν → τ) (acc : τ) (ps : List (PageOf ν)) : τ :=
  ps.foldl (fun a p => p.nodes.foldl ins a) acc

/-- The cursors an execution of the pagination loop sends: the starting
cursor for the first request, then each page's end cursor for the next. -/
def cursorTrail {ν : Type} (cur : Option String) : List (PageOf ν) → List (Option String)
  | [] => [cur]
  | p :: ps => cur :: cursorTrail (some p.endCursor) ps

/-! ### Entity payloads (`cache_envs_v4.go`, `cache_envs_secret_v4.go`,
`cache_team_repo_v4.go`, `cache_repos_v4.go`) -/

/-- `EnvReviewer` of `cache_envs_v4.go:26-29`. -/
structure EnvReviewer : Type where
  type : String
  id : Int
  deriving DecidableEq

/-- `BranchPolicyV4` of `cache_envs_v4.go:31-34`. -/
structure BranchPolicyV4 : Type where
  protectedBranches : Bool
  customBranchPolicies : Bool
  deriving DecidableEq

/-- `ProtectionRuleV4` of `cache_envs_v4.go:20-25`. -/
structure ProtectionRuleV4 : Type where
  type : String
  waitTimer : Int
  preventSelfReview : Bool
  reviewers : List EnvReviewer
  deriving DecidableEq

/-- `EnvV4Data` of `cache_envs_v4.go:11-19`; the Go pointer field
`DeploymentBranchPolicy *BranchPolicyV4` becomes an `Option`. -/
structure EnvV4Data : Type where
  name : String
  canAdminsBypass : Bool
  waitTimer : Int
  preventSelfReview : Bool
  reviewers : List EnvReviewer
  deploymentBranchPolicy : Option BranchPolicyV4
  protectionRules : List ProtectionRuleV4
  deriving DecidableEq

/-- A reviewer node of the environments list query (`cache_envs_v4.go:61-64`). -/
structure EnvReviewerNode : Type where
  type : String
  id : Int
  deriving DecidableEq

/-- The branch-policy part of an environment node (`cache_envs_v4.go:65-68`). -/
structure EnvBranchPolicyNode : Type where
  protectedBranches : Bool
  customBranchPolicies : Bool
  deriving DecidableEq

/-- One node of the environments list query (`cache_envs_v4.go:56-69`). -/
structure EnvNode : Type where
  name : String
  canAdminsBypass : Bool
  waitTimer : Int
  preventSelfReview : Bool
  reviewers : List EnvReviewerNode
  deploymentBranchPolicy : EnvBranchPolicyNode
  deriving DecidableEq

/-- The per-node body of the environments bulk-load loop
(`cache_envs_v4.go:89-108`): build the `EnvV4Data` record and assign it
under the node's name; `ProtectionRules` is not populated by the bulk load
(Go zero value `nil` slice, modelled `[]`). -/
def envEntryOfNode (e : EnvNode) : EnvV4Data :=
  { name := e.name
  , canAdminsBypass := e.canAdminsBypass
  , waitTimer := e.waitTimer
  , preventSelfReview := e.preventSelfReview
  , reviewers := e.reviewers.map (fun r => { type := r.type, id := r.id })
  , deploymentBranchPolicy := some
      { protectedBranches := e.deploymentBranchPolicy.protectedBranches
      , customBranchPolicies := e.deploymentBranchPolicy.customBranchPolicies }
  , protectionRules := [] }

/-- Insertion `o.envCache[repoName][e.Name] = &EnvV4Data{...}` restricted to
the repository's sub-map (`cache_envs_v4.go:98`). -/
def envInsert (t : Table String EnvV4Data) (e : EnvNode) : Table String EnvV4Data :=
  t.insert e.name (envEntryOfNode e)

/-- `EnvSecretV4Data` of `cache_envs_secret_v4.go:11-18`. -/
structure EnvSecretV4Data : Type where
  name : String
  createdAt : String
  updatedAt : String
  visibility : String
  selectedTeams : List String
  selectedRepos : List String
  deriving DecidableEq

/-- A named sub-object (`struct { Name string }`) of a list query node. -/
structure NameNode : Type where
  name : String
  deriving DecidableEq

/-- One node of the environment-secrets list query
(`cache_envs_secret_v4.go:43-54`); the `githubv4.DateTime` stamps are kept
as the strings their `.String()` rendering produces. -/
structure SecretNode : Type where
  name : String
  createdAt : String
  updatedAt : String
  visibility : String
  selectedRepositories : List NameNode
  selectedTeams : List NameNode
  deriving DecidableEq

/-- The per-node body of the secrets bulk-load loop
(`cache_envs_secret_v4.go:76-93`). -/
def secretInsert (t : Table String EnvSecretV4Data) (s : SecretNode) :
    Table String EnvSecretV4Data :=
  t.insert s.name
    { name := s.name
    , createdAt := s.createdAt
    , updatedAt := s.updatedAt
    , visibility := s.visibility
    , selectedRepos := s.selectedRepositories.map NameNode.name
    , selectedTeams := s.selectedTeams.map NameNode.name }

/-- `TeamRepoV4Data` of `cache_team_repo_v4.go:11-14`. -/
structure TeamRepoV4Data : Type where
  name : String
  permission : String
  deriving DecidableEq

/-- One node of the team-repositories list query (`cache_team_repo_v4.go:35-38`). -/
structure TeamRepoNode : Type where
  name : String
  permission : String
  deriving DecidableEq

/-- The per-node body of the team-repositories bulk-load loop
(`cache_team_repo_v4.go:59-64`). -/
def teamRepoInsert (t : Table String TeamRepoV4Data) (r : TeamRepoNode) :
    Table String TeamRepoV4Data :=
  t.insert r.name { name := r.name, permission := r.permission }

/-- `RepoV4Data` of `cache_repos_v4.go:14-53`; the loosely typed
`SecurityAnalysis map[string]any` always holds the two booleans the code
stores, modelled as a `Table String Bool`. -/
structure RepoV4Data : Type where
  name : String
  description : String
  visibility : String
  isArchived : Bool
  isPrivate : Bool
  topics : List String
  defaultBranch : String
  homepageURL : String
  hasIssues : Bool
  hasDiscussions : Bool
  hasProjects : Bool
  hasWiki : Bool
  isTemplate : Bool
  allowAutoMerge : Bool
  allowMergeCommit : Bool
  allowRebaseMerge : Bool
  allowSquashMerge : Bool
  allowUpdateBranch : Bool
  allowForking : Bool
  deleteBranchOnMerge : Bool
  webCommitSignoffRequired : Bool
  mergeCommitMessage : String
  mergeCommitTitle : String
  squashMergeCommitMessage : String
  squashMergeCommitTitle : String
  fork : Bool
  parentOwner : String
  parentName : String
  templateOwner : String
  templateRepo : String
  htmlURL : String
  sshURL : String
  gitURL : String
  svnURL : String
  primaryLanguage : String
  securityAnalysis : Table String Bool
  vulnerabilityAlerts : Bool
  hasPages : Bool
  deriving DecidableEq

/-- One node of the repositories list query (`cache_repos_v4.go:70-123`);
the identical field set is also returned by the single-repository point
query (`cache_repos_v4.go:218-273`). -/
structure RepoNode : Type where
  name : String
  description : String
  visibility : String
  isArchived : Bool
  isPrivate : Bool
  topics : List String
  defaultBranchRefName : String
  homepageURL : String
  hasIssues : Bool
  hasDiscussions : Bool
  hasProjects : Bool
  hasWiki : Bool
  isTemplate : Bool
  allowAutoMerge : Bool
  allowMergeCommit : Bool
  allowRebaseMerge : Bool
  allowSquashMerge : Bool
  allowUpdateBranch : Bool
  allowForking : Bool
  deleteBranchOnMerge : Bool
  webCommitSignoffRequired : Bool
  mergeCommitMessage : String
  mergeCommitTitle : String
  squashMergeCommitMessage : String
  squashMergeCommitTitle : String
  fork : Bool
  parentOwnerLogin : String
  parentName : String
  templateRepositoryOwnerLogin : String
  templateRepositoryName : String
  url : String
  sshURL : String
  gitURL : String
  svnURL : String
  primaryLanguageName : String
  securityAnalysisAdvancedSecurityEnabled : Bool
  securityAnalysisVulnerabilityAlerts : Bool
  hasPages : Bool
  deriving DecidableEq

/-- The `&RepoV4Data{...}` construction from a query node; written once in
the bulk-load loop (`cache_repos_v4.go:145-187`) and repeated verbatim in
the point-query fallback (`cache_repos_v4.go:285-327`). -/
def repoEntryOfNode (r : RepoNode) : RepoV4Data :=
  { name := r.name
  , description := r.description
  , visibility := r.visibility
  , isArchived := r.isArchived
  , isPrivate := r.isPrivate
  , topics := r.topics
  , defaultBranch := r.defaultBranchRefName
  , homepageURL := r.homepageURL
  , hasIssues := r.hasIssues
  , hasDiscussions := r.hasDiscussions
  , hasProjects := r.hasProjects
  , hasWiki := r.hasWiki
  , isTemplate := r.isTemplate
  , allowAutoMerge := r.allowAutoMerge
  , allowMergeCommit := r.allowMergeCommit
  , allowRebaseMerge := r.allowRebaseMerge
  , allowSquashMerge := r.allowSquashMerge
  , allowUpdateBranch := r.allowUpdateBranch
  , allowForking := r.allowForking
  , deleteBranchOnMerge := r.deleteBranchOnMerge
  , webCommitSignoffRequired := r.webCommitSignoffRequired
  , mergeCommitMessage := r.mergeCommitMessage
  , mergeCommitTitle := r.mergeCommitTitle
  , squashMergeCommitMessage := r.squashMergeCommitMessage
  , squashMergeCommitTitle := r.squashMergeCommitTitle
  , fork := r.fork
  , parentOwner := r.parentOwnerLogin
  , parentName := r.parentName
  , templateOwner := r.templateRepositoryOwnerLogin
  , templateRepo := r.templateRepositoryName
  , htmlURL := r.url
  , sshURL := r.sshURL
  , gitURL := r.gitURL
  , svnURL := r.svnURL
  , primaryLanguage := r.primaryLanguageName
  , securityAnalysis :=
      [ ("advanced_security", r.securityAnalysisAdvancedSecurityEnabled)
      , ("vulnerability_alerts", r.securityAnalysisVulnerabilityAlerts) ]
  , vulnerabilityAlerts := r.securityAnalysisVulnerabilityAlerts
  , hasPages := r.hasPages }

/-- The per-node body of the repositories bulk-load loop
(`cache_repos_v4.go:144-188`). -/
def repoInsert (t : Table String RepoV4Data) (r : RepoNode) : Table String RepoV4Data :=
  t.insert r.name (repoEntryOfNode r)

/-! ### Owner state and the cache operations -/

/-- The cache-relevant state of the provider's `Owner` context: the four
cache maps (Go `nil` maps are `none`) and the `sync.Once` flags guarding
them.  `name` is the configured organization login used in query variables. -/
structure Owner : Type where
  name : String
  envCache : Option (Table String (Table String EnvV4Data))
  envCacheOnceDone : Bool
  envSecretCache : Option (Table String (Table String (Table String EnvSecretV4Data)))
  envSecretCacheOnceDone : Bool
  teamRepoCache : Option (Table Int (Table String TeamRepoV4Data))
  teamRepoCacheOnceDone : Bool
  repoCache : Option (Table String RepoV4Data)
  repoCacheOnceDone : Bool
  deriving DecidableEq

/-- Read `o.envCache[repoName][envName]` through the possibly `nil` maps
(reading a `nil` Go map yields the zero value). -/
def envLookup (o : Owner) (repoName envName : String) : Option EnvV4Data :=
  (((o.envCache.getD []).find? repoName).getD []).find? envName

/-- Read `o.envSecretCache[repoName][envName][secretName]`. -/
def secretLookup (o : Owner) (repoName envName secretName : String) :
    Option EnvSecretV4Data :=
  ((((((o.envSecretCache.getD []).find? repoName).getD []).find? envName).getD
    []).find? secretName)

/-- Read `o.teamRepoCache[teamID][repoName]`. -/
def teamRepoLookup (o : Owner) (teamID : Int) (repoName : String) :
    Option TeamRepoV4Data :=
  (((o.teamRepoCache.getD []).find? teamID).getD []).find? repoName

/-- Read `o.repoCache[name]`. -/
def repoLookup (o : Owner) (name : String) : Option RepoV4Data :=
  (o.repoCache.getD []).find? name

/-- Result of one bulk-load call: the returned Go error (if any), the owner
state after the call, and the ghost list of cursors of the list queries the
call issued (`[]` when the call returned without querying). -/
structure LoadResult : Type where
  err : Option GoError
  owner : Owner
  cursors : List (Option String)
  deriving DecidableEq

/-- `o.envCacheOnce.Do(func() { if o.envCache == nil { o.envCache = make(...) } })`
(`cache_envs_v4.go:40-44`), run sequentially. -/
def onceEnvCache (o : Owner) : Owner :=
  if o.envCacheOnceDone then o
  else { o with envCacheOnceDone := true, envCache := some (o.envCache.getD []) }

/-- `loadAllEnvironmentsV4` (`cache_envs_v4.go:39-118`): ensure the outer
map exists, return nil at once if the repository's sub-map is already
present, otherwise allocate the sub-map (before any query is issued) and
drive the pagination loop, wrapping a query failure as
`failed to load environments for repo ...`. -/
def loadAllEnvironmentsV4 (o : Owner) (repoName : String)
    (responses : List (Except ClientErr (PageOf EnvNode))) : Option LoadResult :=
  let o1 := onceEnvCache o
  let m := o1.envCache.getD []
  if (m.find? repoName).isSome then
    some { err := none, owner := o1, cursors := [] }
  else
    let m1 := m.insert repoName []
    match pageLoop envInsert [] responses none with
    | none => none
    | some (sub, errOpt, curs) =>
      let o2 := { o1 with envCache := some (m1.insert repoName sub) }
      match errOpt with
      | some e =>
        some { err := some (GoError.failedToLoadEnvs repoName e), owner := o2,
               cursors := curs }
      | none => some { err := none, owner := o2, cursors := curs }

/-- `GetEnvironmentFromCache` (`cache_envs_v4.go:121-136`): bulk-load the
repository's environments if its sub-map is absent, then a direct lookup;
a miss returns the `environment ... not found in repo ...` error.  The
final `Bool` is the ghost point-query flag: this function contains no
single-item fetch (the source keeps only a comment where it would go), so
the flag is always `false`. -/
def GetEnvironmentFromCache (o : Owner) (repoName envName : String)
    (responses : List (Except ClientErr (PageOf EnvNode))) :
    Option (Except GoError EnvV4Data × Owner × Bool) :=
  if ((o.envCache.getD []).find? repoName).isNone then
    match loadAllEnvironmentsV4 o repoName responses with
    | none => none
    | some lr =>
      match lr.err with
      | some e => some (Except.error e, lr.owner, false)
      | none =>
        match envLookup lr.owner repoName envName with
        | some env => some (Except.ok env, lr.owner, false)
        | none =>
          some (Except.error (GoError.envNotFound envName repoName), lr.owner, false)
  else
    match envLookup o repoName envName with
    | some env => some (Except.ok env, o, false)
    | none => some (Except.error (GoError.envNotFound envName repoName), o, false)

/-- `o.envSecretCacheOnce.Do(...)` (`cache_envs_secret_v4.go:22-27`). -/
def onceEnvSecretCache (o : Owner) : Owner :=
  if o.envSecretCacheOnceDone then o
  else { o with envSecretCacheOnceDone := true,
                envSecretCache := some (o.envSecretCache.getD []) }

/-- `loadAllEnvSecretsV4` (`cache_envs_secret_v4.go:21-103`): ensure the
outer map and the repository level exist, return nil at once if the
environment's sub-map is already present, otherwise allocate it (before any
query) and drive the pagination loop, wrapping a query failure as
`failed to load environment secrets for repo .../...`. -/
def loadAllEnvSecretsV4 (o : Owner) (repoName envName : String)
    (responses : List (Except ClientErr (PageOf SecretNode))) : Option LoadResult :=
  let o1 := onceEnvSecretCache o
  let m0 := o1.envSecretCache.getD []
  let m := if (m0.find? repoName).isNone then m0.insert repoName [] else m0
  let o2 := { o1 with envSecretCache := some m }
  let repoTbl := (m.find? repoName).getD []
  if (repoTbl.find? envName).isSome then
    some { err := none, owner := o2, cursors := [] }
  else
    match pageLoop secretInsert [] responses none with
    | none => none
    | some (sub, errOpt, curs) =>
      let m2 := m.insert repoName (repoTbl.insert envName sub)
      let o3 := { o1 with envSecretCache := some m2 }
      match errOpt with
      | some e =>
        some { err := some (GoError.failedToLoadEnvSecrets repoName envName e),
               owner := o3, cursors := curs }
      | none => some { err := none, owner := o3, cursors := curs }

/-- `GetEnvSecretFromCache` (`cache_envs_secret_v4.go:106-118`): bulk-load
the (repository, environment) scope if its sub-map is absent, then a direct
lookup; a miss returns the `environment secret ... not found in repo ...`
error directly — this function has no single-item fallback at all, so the
ghost point-query flag is always `false`. -/
def GetEnvSecretFromCache (o : Owner) (repoName envName secretName : String)
    (responses : List (Except ClientErr (PageOf SecretNode))) :
    Option (Except GoError EnvSecretV4Data × Owner × Bool) :=
  if (((((o.envSecretCache.getD []).find? repoName).getD []).find? envName)).isNone then
    match loadAllEnvSecretsV4 o repoName envName responses with
    | none => none
    | some lr =>
      match lr.err with
      | some e => some (Except.error e, lr.owner, false)
      | none =>
        match secretLookup lr.owner repoName envName secretName with
        | some s => some (Except.ok s, lr.owner, false)
        | none =>
          some (Except.error (GoError.envSecretNotFound secretName repoName envName),
            lr.owner, false)
  else
    match secretLookup o repoName envName secretName with
    | some s => some (Except.ok s, o, false)
    | none =>
      some (Except.error (GoError.envSecretNotFound secretName repoName envName),
        o, false)

/-- `o.teamRepoCacheOnce.Do(...)` (`cache_team_repo_v4.go:18-22`). -/
def onceTeamRepoCache (o : Owner) : Owner :=
  if o.teamRepoCacheOnceDone then o
  else { o with teamRepoCacheOnceDone := true,
                teamRepoCache := some (o.teamRepoCache.getD []) }

/-- `loadAllTeamReposV4` (`cache_team_repo_v4.go:17-73`): same shape as the
environments load, keyed by the numeric team id; a query failure is wrapped
as `failed to load repositories for team ...`. -/
def loadAllTeamReposV4 (o : Owner) (teamID : Int)
    (responses : List (Except ClientErr (PageOf TeamRepoNode))) : Option LoadResult :=
  let o1 := onceTeamRepoCache o
  let m := o1.teamRepoCache.getD []
  if (m.find? teamID).isSome then
    some { err := none, owner := o1, cursors := [] }
  else
    let m1 := m.insert teamID []
    match pageLoop teamRepoInsert [] responses none with
    | none => none
    | some (sub, errOpt, curs) =>
      let o2 := { o1 with teamRepoCache := some (m1.insert teamID sub) }
      match errOpt with
      | some e =>
        some { err := some (GoError.failedToLoadTeamRepos teamID e), owner := o2,
               cursors := curs }
      | none => some { err := none, owner := o2, cursors := curs }

/-- `GetTeamRepoFromCache` (`cache_team_repo_v4.go:76-90`): bulk-load the
team's repositories if its sub-map is absent, then a direct lookup; a miss
returns the `team ... does not have access to repo ...` error directly —
no single-item fallback exists (only a comment), so the ghost point-query
flag is always `false`. -/
def GetTeamRepoFromCache (o : Owner) (teamID : Int) (repoName : String)
    (responses : List (Except ClientErr (PageOf TeamRepoNode))) :
    Option (Except GoError TeamRepoV4Data × Owner × Bool) :=
  if ((o.teamRepoCache.getD []).find? teamID).isNone then
    match loadAllTeamReposV4 o teamID responses with
    | none => none
    | some lr =>
      match lr.err with
      | some e => some (Except.error e, lr.owner, false)
      | none =>
        match teamRepoLookup lr.owner teamID repoName with
        | some repo => some (Except.ok repo, lr.owner, false)
        | none =>
          some (Except.error (GoError.teamRepoNotFound teamID repoName), lr.owner, false)
  else
    match teamRepoLookup o teamID repoName with
    | some repo => some (Except.ok repo, o, false)
    | none => some (Except.error (GoError.teamRepoNotFound teamID repoName), o, false)

/-- `RemoveTeamRepoFromCache` (`cache_team_repo_v4.go:93-97`): delete the
binding when the cache map and the team's sub-map both exist; otherwise do
nothing. -/
def RemoveTeamRepoFromCache (o : Owner) (teamID : Int) (repoName : String) : Owner :=
  match o.teamRepoCache with
  | none => o
  | some m =>
    match m.find? teamID with
    | none => o
    | some sub =>
      { o with teamRepoCache := some (m.insert teamID (sub.erase repoName)) }

/-- `loadAllReposV4` (`cache_repos_v4.go:62-198`): the whole load body —
allocation of the cache map and the pagination loop — runs under
`o.repoCacheOnce.Do`, so it executes at most once per process; any later
call returns `loadErr`'s zero value `nil` without doing anything.  A page
failure sets `loadErr` to the raw client error (no wrapping) and aborts,
leaving the pages already applied in the cache. -/
def loadAllReposV4 (o : Owner)
    (responses : List (Except ClientErr (PageOf RepoNode))) : Option LoadResult :=
  if o.repoCacheOnceDone then
    some { err := none, owner := o, cursors := [] }
  else
    let o1 := { o with repoCacheOnceDone := true }
    match pageLoop repoInsert [] responses none with
    | none => none
    | some (tbl, errOpt, curs) =>
      let o2 := { o1 with repoCache := some tbl }
      match errOpt with
      | some e =>
        some { err := some (GoError.clientErr e), owner := o2, cursors := curs }
      | none => some { err := none, owner := o2, cursors := curs }

/-- The lookup-and-fallback part of `GetRepoFromCache`
(`cache_repos_v4.go:212-331`): direct lookup, and on a miss the single-item
point query; any point-query failure is wrapped as
`failed to fetch repository ...`, a success is inserted into the cache and
returned.  The ghost point-query flag is `true` exactly when the point
query was issued. -/
def getRepoLookupStep (o : Owner) (name : String)
    (pointResponse : Except ClientErr RepoNode) :
    Option (Except GoError RepoV4Data × Owner × Bool) :=
  match (o.repoCache.getD []).find? name with
  | some repo => some (Except.ok repo, o, false)
  | none =>
    match pointResponse with
    | Except.error e =>
      some (Except.error (GoError.failedToFetchRepo name e), o, true)
    | Except.ok node =>
      let repo := repoEntryOfNode node
      some (Except.ok repo,
        { o with repoCache := some ((o.repoCache.getD []).insert name repo) }, true)

/-- `GetRepoFromCache` (`cache_repos_v4.go:205-331`): bulk-load the
organization's repositories when the cache map is still `nil`, then the
lookup-and-fallback step. -/
def GetRepoFromCache (o : Owner) (name : String)
    (listResponses : List (Except ClientErr (PageOf RepoNode)))
    (pointResponse : Except ClientErr RepoNode) :
    Option (Except GoError RepoV4Data × Owner × Bool) :=
  if o.repoCache.isNone then
    match loadAllReposV4 o listResponses with
    | none => none
    | some lr =>
      match lr.err with
      | some e => some (Except.error e, lr.owner, false)
      | none => getRepoLookupStep lr.owner name pointResponse
  else getRepoLookupStep o name pointResponse

/-- The cache effect of `resourceGithubRepositoryEnvironmentDelete`
(`resource_github_team_repository.go:670-673`): after the remote deletion,
`delete(o.envCache[repoName], envName)` guarded by the two nil checks.
Only the environment cache is touched. -/
def removeEnvFromCache (o : Owner) (repoName envName : String) : Owner :=
  match o.envCache with
  | none => o
  | some m =>
    match m.find? repoName with
    | none => o
    | some sub =>
      { o with envCache := some (m.insert repoName (sub.erase envName)) }

/-! ### The v3 fallback of the environment read handler
(`resource_github_team_repository.go:491-552`) -/

/-- A reviewer of the v3 `GetEnvironment` response; the go-github pointer
fields become `Option`s and the `GetX` safe getters become `Option.getD`
with the zero value. -/
structure EnvReviewerV3 : Type where
  type : Option String
  id : Option Int
  deriving DecidableEq

/-- The v3 deployment branch policy object. -/
structure BranchPolicyV3 : Type where
  protectedBranches : Option Bool
  customBranchPolicies : Option Bool
  deriving DecidableEq

/-- The fields of the v3 environment response the read handler consumes. -/
structure EnvV3 : Type where
  name : Option String
  canAdminsBypass : Option Bool
  reviewers : List EnvReviewerV3
  deploymentBranchPolicy : Option BranchPolicyV3
  deriving DecidableEq

/-- The reviewer-mapping loop of the read handler
(`resource_github_team_repository.go:510-524`): keep reviewers whose type
is `Team` or `User` and whose id pointer is non-nil. -/
def envReviewersFromV3 (rs : List EnvReviewerV3) : List EnvReviewer :=
  rs.foldl
    (fun acc r =>
      match r.type with
      | none => acc
      | some t =>
        if t = "Team" then
          match r.id with
          | some i => acc ++ [{ type := "Team", id := i }]
          | none => acc
        else if t = "User" then
          match r.id with
          | some i => acc ++ [{ type := "User", id := i }]
          | none => acc
        else acc)
    []

/-- The `EnvV4Data` the read handler builds from a v3 point-query response
(`resource_github_team_repository.go:526-542`): the v3 response cannot
populate `WaitTimer` and `PreventSelfReview`, which are defaulted to `0`
and `false`, and `ProtectionRules` is left empty. -/
def envDataFromV3 (envV3 : EnvV3) : EnvV4Data :=
  let deployPolicy : BranchPolicyV4 :=
    match envV3.deploymentBranchPolicy with
    | none => { protectedBranches := false, customBranchPolicies := false }
    | some p =>
      { protectedBranches := p.protectedBranches.getD false
      , customBranchPolicies := p.customBranchPolicies.getD false }
  { name := envV3.name.getD ""
  , canAdminsBypass := envV3.canAdminsBypass.getD false
  , waitTimer := 0
  , preventSelfReview := false
  , reviewers := envReviewersFromV3 envV3.reviewers
  , deploymentBranchPolicy := some deployPolicy
  , protectionRules := [] }

/-- The cache insertion of the read handler's fallback path
(`resource_github_team_repository.go:544-551`): allocate the nested maps if
nil and store the entry built from the v3 response. -/
def readFallbackInsertEnv (o : Owner) (repoName envName : String) (envV3 : EnvV3) :
    Owner :=
  let envData := envDataFromV3 envV3
  let m := o.envCache.getD []
  let sub := (m.find? repoName).getD []
  { o with envCache := some (m.insert repoName (sub.insert envName envData)) }

/-! ### Interleaving model of the scope-load guard
(`cache_envs_v4.go:46-51` with the query loop at `84-115`)

The per-scope guard of `loadAllEnvironmentsV4` is a plain map presence
check (line 46) followed by a plain map write (line 51), with the query
loop after it; only the allocation of the outer map is under a
`sync.Once`.  Two goroutines calling the load for the same repository are
modelled as threads whose atomic steps are exactly these three program
points, interleaved by a schedule (`true` = first thread steps). -/

/-- Shared state of the race model: whether the scope's sub-map is present
in `o.envCache`, and how many list-query sequences have been issued for the
scope. -/
structure RaceState : Type where
  scopeMarked : Bool
  listQueries : Nat
  deriving DecidableEq

/-- One atomic step of a thread running `loadAllEnvironmentsV4` for the
scope.  Program counters: `0` = about to run the presence check of line 46
(return early if marked), `1` = about to run the sub-map write of line 51,
`2` = about to run the query loop of lines 84-115, `3` = returned. -/
def raceStep (s : RaceState) (pc : Nat) : RaceState × Nat :=
  match pc with
  | 0 => if s.scopeMarked then (s, 3) else (s, 1)
  | 1 => ({ s with scopeMarked := true }, 2)
  | 2 => ({ s with listQueries := s.listQueries + 1 }, 3)
  | _ => (s, pc)

/-- Run two threads of the race model under a schedule (`true` steps the
first thread, `false` the second); returns the final shared state and both
program counters. -/
def runSchedule : List Bool → RaceState → Nat → Nat → RaceState × Nat × Nat
  | [], s, p1, p2 => (s, p1, p2)
  | true :: rest, s, p1, p2 =>
    let r := raceStep s p1
    runSchedule rest r.1 r.2 p2
  | false :: rest, s, p1, p2 =>
    let r := raceStep s p2
    runSchedule rest r.1 p1 r.2

/-! ### Concrete fixtures used by witnesses and counterexamples -/

/-- A fresh owner state: no cache allocated, no once-gate fired. -/
def emptyOwner : Owner :=
  { name := "octo"
  , envCache := none
  , envCacheOnceDone := false
  , envSecretCache := none
  , envSecretCacheOnceDone := false
  , teamRepoCache := none
  , teamRepoCacheOnceDone := false
  , repoCache := none
  , repoCacheOnceDone := false }

/-- Environment node fixture: `prod` with a team reviewer. -/
def envNodeProd : EnvNode :=
  { name := "prod"
  , canAdminsBypass := true
  , waitTimer := 10
  , preventSelfReview := false
  , reviewers := [{ type := "Team", id := 42 }]
  , deploymentBranchPolicy := { protectedBranches := true, customBranchPolicies := false } }

/-- Environment node fixture: `staging`. -/
def envNodeStaging : EnvNode :=
  { name := "staging"
  , canAdminsBypass := false
  , waitTimer := 0
  , preventSelfReview := false
  , reviewers := []
  , deploymentBranchPolicy := { protectedBranches := false, customBranchPolicies := false } }

/-- A first page that reports another page after it. -/
def envPage1 : PageOf EnvNode :=
  { nodes := [envNodeProd], hasNextPage := true, endCursor := "c1" }

/-- A final page. -/
def envPage2 : PageOf EnvNode :=
  { nodes := [envNodeStaging], hasNextPage := false, endCursor := "c2" }

/-- Secret entry fixture. -/
def secretA : EnvSecretV4Data :=
  { name := "a"
  , createdAt := "t1"
  , updatedAt := "t2"
  , visibility := "private"
  , selectedTeams := []
  , selectedRepos := [] }

/-- Team-repo entry fixture. -/
def teamRepoA : TeamRepoV4Data := { name := "a", permission := "push" }

/-- Environment entry fixture (as bulk load would store `prod`). -/
def envProd : EnvV4Data := envEntryOfNode envNodeProd

/-- Repository node fixture with every field at a simple value. -/
def repoNodeA : RepoNode :=
  { name := "a"
  , description := ""
  , visibility := "PRIVATE"
  , isArchived := false
  , isPrivate := true
  , topics := []
  , defaultBranchRefName := "main"
  , homepageURL := ""
  , hasIssues := true
  , hasDiscussions := false
  , hasProjects := false
  , hasWiki := false
  , isTemplate := false
  , allowAutoMerge := false
  , allowMergeCommit := true
  , allowRebaseMerge := true
  , allowSquashMerge := true
  , allowUpdateBranch := false
  , allowForking := false
  , deleteBranchOnMerge := false
  , webCommitSignoffRequired := false
  , mergeCommitMessage := "PR_TITLE"
  , mergeCommitTitle := "MERGE_MESSAGE"
  , squashMergeCommitMessage := "COMMIT_MESSAGES"
  , squashMergeCommitTitle := "COMMIT_OR_PR_TITLE"
  , fork := false
  , parentOwnerLogin := ""
  , parentName := ""
  , templateRepositoryOwnerLogin := ""
  , templateRepositoryName := ""
  , url := "https://example.invalid/a"
  , sshURL := ""
  , gitURL := ""
  , svnURL := ""
  , primaryLanguageName := "Go"
  , securityAnalysisAdvancedSecurityEnabled := false
  , securityAnalysisVulnerabilityAlerts := true
  , hasPages := false }

/-- Owner whose environment cache has repository `r` loaded with only
`prod`. -/
def ownerEnvLoaded : Owner :=
  { emptyOwner with
      envCache := some [("r", [("prod", envProd)])]
    , envCacheOnceDone := true }

/-- Owner whose secret cache has scope (`r`, `e`) loaded with only secret
`a`. -/
def ownerSecretLoaded : Owner :=
  { emptyOwner with
      envSecretCache := some [("r", [("e", [("a", secretA)])])]
    , envSecretCacheOnceDone := true }

/-- Owner whose team-repo cache has team `7` loaded with only repo `a`. -/
def ownerTeamLoaded : Owner :=
  { emptyOwner with
      teamRepoCache := some [((7 : Int), [("a", teamRepoA)])]
    , teamRepoCacheOnceDone := true }

/-- Owner whose repository cache is loaded with only repo `a`. -/
def ownerRepoLoaded : Owner :=
  { emptyOwner with
      repoCache := some [("a", repoEntryOfNode repoNodeA)]
    , repoCacheOnceDone := true }

/-- The first bulk-load call of the C1 scenario: a fresh owner, scope `r`,
and a remote whose first list query fails. -/
def c1FirstCall : Option LoadResult :=
  loadAllEnvironmentsV4 emptyOwner "r" [Except.error (ClientErr.other "boom")]

/-- The owner state after the failed first load of the C1 scenario. -/
def c1OwnerAfterFail : Owner := (c1FirstCall.map LoadResult.owner).getD emptyOwner

/-- The per-scope loaded-state of the environment cache: the repository's
sub-map of `o.envCache`, `none` when the scope was never loaded (this is the
presence check of `cache_envs_v4.go:46` and `cache_envs_v4.go:122`). -/
def envScope (o : Owner) (repoName : String) : Option (Table String EnvV4Data) :=
  (o.envCache.getD []).find? repoName

/-- The per-scope loaded-state of the environment-secret cache
(`cache_envs_secret_v4.go:32` and `cache_envs_secret_v4.go:107`). -/
def secretScope (o : Owner) (repoName envName : String) :
    Option (Table String EnvSecretV4Data) :=
  (((o.envSecretCache.getD []).find? repoName).getD []).find? envName

/-- The per-scope loaded-state of the team-repository cache
(`cache_team_repo_v4.go:24` and `cache_team_repo_v4.go:77`). -/
def teamRepoScope (o : Owner) (teamID : Int) : Option (Table String TeamRepoV4Data) :=
  (o.teamRepoCache.getD []).find? teamID

/-- The repository table of `ownerRepoLoaded` after the fallback fetch of
name `x` answered with `repoNodeA`. -/
def repoTableAfterFallback : Table String RepoV4Data :=
  Table.insert [("a", repoEntryOfNode repoNodeA)] "x" (repoEntryOfNode repoNodeA)

/-- `ownerRepoLoaded` after the fallback fetch inserted under name `x`. -/
def ownerRepoAfterFallback : Owner :=
  { ownerRepoLoaded with repoCache := some repoTableAfterFallback }

/-- Owner with both the environment `e` of repository `r` cached and the
secret `a` of that environment cached. -/
def ownerBoth : Owner :=
  { emptyOwner with
      envCache := some [("r", [("e", envProd)])]
    , envCacheOnceDone := true
    , envSecretCache := some [("r", [("e", [("a", secretA)])])]
    , envSecretCacheOnceDone := true }

/-- The result of bulk-loading scope `r2` on `ownerEnvLoaded` from a single
final page. -/
def c8LR : LoadResult :=
  (loadAllEnvironmentsV4 ownerEnvLoaded "r2" [Except.ok envPage2]).getD
    { err := none, owner := emptyOwner, cursors := [] }

/-! ## Theorems

First the association-table lemmas, then helper lemmas about the cache
operations, then one theorem (plus witness or counterexample) per claim. -/

theorem Table.find?_erase_self {α β : Type} [DecidableEq α] (t : Table α β) (k : α) :
    (t.erase k).find? k = none := by
  induction t with
  | nil => rfl
  | cons p t ih =>
    by_cases h : p.1 = k
    · simpa [Table.erase, List.filter, h] using ih
    · simpa [Table.erase, List.filter, h, Table.find?] using ih

theorem Table.find?_erase_ne {α β : Type} [DecidableEq α] (t : Table α β) (k a : α)
    (h : k ≠ a) : (t.erase k).find? a = t.find? a := by
  induction t with
  | nil => rfl
  | cons p t ih =>
    by_cases hp : p.1 = k
    · have hpa : ¬ p.1 = a := by simpa [hp] using h
      simp [Table.erase, List.filter, hp, Table.find?, hpa, h] at ih ⊢
      exact ih
    · simp [Table.erase, List.filter, hp, Table.find?] at ih ⊢
      by_cases hpa : p.1 = a
      · simp [hpa]
      · simp [hpa]
        exact ih

theorem Table.find?_insert_self {α β : Type} [DecidableEq α] (t : Table α β) (k : α)
    (v : β) : (t.insert k v).find? k = some v := by
  simp [Table.insert, Table.find?]

theorem Table.find?_insert_ne {α β : Type} [DecidableEq α] (t : Table α β) (k a : α)
    (v : β) (h : k ≠ a) : (t.insert k v).find? a = t.find? a := by
  simp [Table.insert, Table.find?, h, Table.find?_erase_ne t k a h]

/-! ### Helper lemmas about the pagination driver -/

theorem pageLoop_error_spec {τ ν : Type} (ins : τ → ν → τ) (e : ClientErr)
    (rest : List (Except ClientErr (PageOf ν))) :
    ∀ (ps : List (PageOf ν)) (acc : τ) (cur : Option String),
      (∀ p ∈ ps, p.hasNextPage = true) →
      pageLoop ins acc (ps.map Except.ok ++ Except.error e :: rest) cur
        = some (applyPages ins acc ps, some e, cursorTrail cur ps) := by
  intro ps
  induction ps with
  | nil => intro acc cur _; rfl
  | cons p ps ih =>
    intro acc cur hps
    have hp : p.hasNextPage = true := hps p (List.mem_cons_self p ps)
    have hrest : ∀ q ∈ ps, q.hasNextPage = true :=
      fun q hq => hps q (List.mem_cons_of_mem p hq)
    simp only [List.map_cons, List.cons_append, pageLoop, hp, if_true, List.append_eq]
    rw [ih (p.nodes.foldl ins acc) (some p.endCursor) hrest]
    simp [applyPages, cursorTrail]

theorem pageLoop_success_spec {τ ν : Type} (ins : τ → ν → τ) (plast : PageOf ν)
    (rest : List (Except ClientErr (PageOf ν))) (hlast : plast.hasNextPage = false) :
    ∀ (ps : List (PageOf ν)) (acc : τ) (cur : Option String),
      (∀ p ∈ ps, p.hasNextPage = true) →
      pageLoop ins acc (ps.map Except.ok ++ Except.ok plast :: rest) cur
        = some (applyPages ins acc (ps ++ [plast]), none, cursorTrail cur ps) := by
  intro ps
  induction ps with
  | nil =>
    intro acc cur _
    simp [pageLoop, hlast, applyPages, cursorTrail]
  | cons p ps ih =>
    intro acc cur hps
    have hp : p.hasNextPage = true := hps p (List.mem_cons_self p ps)
    have hrest : ∀ q ∈ ps, q.hasNextPage = true :=
      fun q hq => hps q (List.mem_cons_of_mem p hq)
    simp only [List.map_cons, List.cons_append, pageLoop, hp, if_true, List.append_eq]
    rw [ih (p.nodes.foldl ins acc) (some p.endCursor) hrest]
    simp [applyPages, cursorTrail]

/-! ### Helper lemmas about the once-gates and the bulk loads -/

theorem onceEnvCache_flag (o : Owner) : (onceEnvCache o).envCacheOnceDone = true := by
  by_cases h : o.envCacheOnceDone <;> simp [onceEnvCache, h]

theorem onceEnvCache_getD (o : Owner) :
    (onceEnvCache o).envCache.getD [] = o.envCache.getD [] := by
  by_cases h : o.envCacheOnceDone <;> simp [onceEnvCache, h]

theorem onceEnvCache_of_done {o : Owner} (h : o.envCacheOnceDone = true) :
    onceEnvCache o = o := by
  simp [onceEnvCache, h]

theorem onceEnvSecretCache_flag (o : Owner) :
    (onceEnvSecretCache o).envSecretCacheOnceDone = true := by
  by_cases h : o.envSecretCacheOnceDone <;> simp [onceEnvSecretCache, h]

theorem onceEnvSecretCache_getD (o : Owner) :
    (onceEnvSecretCache o).envSecretCache.getD [] = o.envSecretCache.getD [] := by
  by_cases h : o.envSecretCacheOnceDone <;> simp [onceEnvSecretCache, h]

theorem onceEnvSecretCache_of_done {o : Owner} (h : o.envSecretCacheOnceDone = true) :
    onceEnvSecretCache o = o := by
  simp [onceEnvSecretCache, h]

theorem onceTeamRepoCache_flag (o : Owner) :
    (onceTeamRepoCache o).teamRepoCacheOnceDone = true := by
  by_cases h : o.teamRepoCacheOnceDone <;> simp [onceTeamRepoCache, h]

theorem onceTeamRepoCache_getD (o : Owner) :
    (onceTeamRepoCache o).teamRepoCache.getD [] = o.teamRepoCache.getD [] := by
  by_cases h : o.teamRepoCacheOnceDone <;> simp [onceTeamRepoCache, h]

theorem onceTeamRepoCache_of_done {o : Owner} (h : o.teamRepoCacheOnceDone = true) :
    onceTeamRepoCache o = o := by
  simp [onceTeamRepoCache, h]

/-- Every completed call of the environments bulk load leaves the scope's
sub-map present (line 51 allocates it before the first query, and neither
the early return nor the error path removes it) and the once-flag set. -/
theorem loadAllEnvironmentsV4_marks {o : Owner} {r : String}
    {resp : List (Except ClientErr (PageOf EnvNode))} {lr : LoadResult}
    (h : loadAllEnvironmentsV4 o r resp = some lr) :
    (envScope lr.owner r).isSome = true ∧ lr.owner.envCacheOnceDone = true := by
  have hflag := onceEnvCache_flag o
  simp only [loadAllEnvironmentsV4] at h
  split at h
  · rename_i hc
    have hlr := Option.some.inj h
    subst hlr
    exact ⟨hc, hflag⟩
  · split at h
    · exact absurd h (by simp)
    · rename_i sub errOpt curs heq
      split at h <;>
      · have hlr := Option.some.inj h
        subst hlr
        simp [envScope, Table.find?_insert_self, hflag]

/-- A call of the environments bulk load for a scope whose sub-map is
already present returns nil immediately, issues no query and leaves the
owner unchanged (`cache_envs_v4.go:46-49`). -/
theorem loadAllEnvironmentsV4_already {o : Owner} {r : String}
    (resp : List (Except ClientErr (PageOf EnvNode)))
    (h1 : o.envCacheOnceDone = true) (h2 : (envScope o r).isSome = true) :
    loadAllEnvironmentsV4 o r resp = some { err := none, owner := o, cursors := [] } := by
  simp only [envScope] at h2
  simp [loadAllEnvironmentsV4, onceEnvCache_of_done h1, h2]

/-- Every completed call of the team-repositories bulk load leaves the
scope's sub-map present and the once-flag set (`cache_team_repo_v4.go:29`). -/
theorem loadAllTeamReposV4_marks {o : Owner} {t : Int}
    {resp : List (Except ClientErr (PageOf TeamRepoNode))} {lr : LoadResult}
    (h : loadAllTeamReposV4 o t resp = some lr) :
    (teamRepoScope lr.owner t).isSome = true ∧ lr.owner.teamRepoCacheOnceDone = true := by
  have hflag := onceTeamRepoCache_flag o
  simp only [loadAllTeamReposV4] at h
  split at h
  · rename_i hc
    have hlr := Option.some.inj h
    subst hlr
    exact ⟨hc, hflag⟩
  · split at h
    · exact absurd h (by simp)
    · rename_i sub errOpt curs heq
      split at h <;>
      · have hlr := Option.some.inj h
        subst hlr
        simp [teamRepoScope, Table.find?_insert_self, hflag]

/-- A call of the team-repositories bulk load for an already present scope
returns nil immediately with no query (`cache_team_repo_v4.go:24-27`). -/
theorem loadAllTeamReposV4_already {o : Owner} {t : Int}
    (resp : List (Except ClientErr (PageOf TeamRepoNode)))
    (h1 : o.teamRepoCacheOnceDone = true) (h2 : (teamRepoScope o t).isSome = true) :
    loadAllTeamReposV4 o t resp = some { err := none, owner := o, cursors := [] } := by
  simp only [teamRepoScope] at h2
  simp [loadAllTeamReposV4, onceTeamRepoCache_of_done h1, h2]

/-- Every completed call of the repositories bulk load leaves the process
once-flag set (`sync.Once` never re-runs its body). -/
theorem loadAllReposV4_marks {o : Owner}
    {resp : List (Except ClientErr (PageOf RepoNode))} {lr : LoadResult}
    (h : loadAllReposV4 o resp = some lr) : lr.owner.repoCacheOnceDone = true := by
  simp only [loadAllReposV4] at h
  split at h
  · rename_i hdone
    have hlr := Option.some.inj h
    subst hlr
    simpa using hdone
  · split at h
    · exact absurd h (by simp)
    · rename_i tbl errOpt curs heq
      split at h <;>
      · have hlr := Option.some.inj h
        subst hlr
        rfl

/-- A call of the repositories bulk load after the once-gate has fired
returns nil immediately, queries nothing and changes nothing
(`cache_repos_v4.go:62-64` with `197`). -/
theorem loadAllReposV4_already {o : Owner}
    (resp : List (Except ClientErr (PageOf RepoNode)))
    (h1 : o.repoCacheOnceDone = true) :
    loadAllReposV4 o resp = some { err := none, owner := o, cursors := [] } := by
  simp [loadAllReposV4, h1]

/-- Every completed call of the secrets bulk load leaves the once-flag set,
the cache map allocated and the scope's sub-map present
(`cache_envs_secret_v4.go:29-37`). -/
theorem loadAllEnvSecretsV4_marks {o : Owner} {r e : String}
    {resp : List (Except ClientErr (PageOf SecretNode))} {lr : LoadResult}
    (h : loadAllEnvSecretsV4 o r e resp = some lr) :
    lr.owner.envSecretCacheOnceDone = true ∧
    ∃ M, lr.owner.envSecretCache = some M ∧
      (((M.find? r).getD []).find? e).isSome = true := by
  have hflag := onceEnvSecretCache_flag o
  simp only [loadAllEnvSecretsV4] at h
  split at h <;> split at h
  · rename_i hc
    have hlr := Option.some.inj h
    subst hlr
    exact ⟨hflag, _, rfl, hc⟩
  · split at h
    · exact absurd h (by simp)
    · split at h <;>
      · have hlr := Option.some.inj h
        subst hlr
        exact ⟨hflag, _, rfl, by simp [Table.find?_insert_self]⟩
  · rename_i hc
    have hlr := Option.some.inj h
    subst hlr
    exact ⟨hflag, _, rfl, hc⟩
  · split at h
    · exact absurd h (by simp)
    · split at h <;>
      · have hlr := Option.some.inj h
        subst hlr
        exact ⟨hflag, _, rfl, by simp [Table.find?_insert_self]⟩

/-- A call of the secrets bulk load whose cache map is allocated and whose
(repository, environment) scope is already present returns nil immediately
with no query and an unchanged owner (`cache_envs_secret_v4.go:32-35`). -/
theorem loadAllEnvSecretsV4_already {o : Owner} {r e : String}
    {M : Table String (Table String (Table String EnvSecretV4Data))}
    (resp : List (Except ClientErr (PageOf SecretNode)))
    (h1 : o.envSecretCacheOnceDone = true) (hM : o.envSecretCache = some M)
    (h2 : (((M.find? r).getD []).find? e).isSome = true) :
    loadAllEnvSecretsV4 o r e resp = some { err := none, owner := o, cursors := [] } := by
  have hr : (M.find? r).isNone = false := by
    cases hfr : M.find? r with
    | none => rw [hfr] at h2; simp [Table.find?] at h2
    | some tbl => rfl
  rcases o with ⟨nm, ec, ed, sc, sd, tc, td, rc, rd⟩
  simp only at h1 hM
  subst h1
  subst hM
  simp [loadAllEnvSecretsV4, onceEnvSecretCache, hr, h2]

/-- Claim C1, counterexample.  The claim says a failed bulk load leaves the
scope unmarked so that a later call for the same scope issues the list
query again.  On the code, `loadAllEnvironmentsV4` allocates
`o.envCache[repoName]` (line 51) before the first query: after the first
call fails with `failed to load environments for repo r` (and issued one
list query, cursor trail `[none]`), a second call for scope `r` — against a
remote that would now deliver a page — returns nil immediately with an
empty cursor trail, i.e. it issues no list query at all instead of
re-attempting the bulk load. -/
theorem C1_counterexample :
    c1FirstCall.map LoadResult.err
      = some (some (GoError.failedToLoadEnvs "r" (ClientErr.other "boom")))
  ∧ c1FirstCall.map LoadResult.cursors = some [none]
  ∧ loadAllEnvironmentsV4 c1OwnerAfterFail "r" [Except.ok envPage2]
      = some { err := none, owner := c1OwnerAfterFail, cursors := [] } :=
  ⟨rfl, rfl, rfl⟩

/-- Claim C1, amended.  After any completed bulk-load call — in particular a
failed one — the scope stays marked as loaded (the sub-map allocated before
the query persists for the environment, environment-secret and
team-repository caches; the `sync.Once` of the repository cache never
re-runs), so a later bulk-load call for the same scope returns nil
immediately, issues no list query and leaves the owner unchanged. -/
theorem C1_amended :
    (∀ (o : Owner) (r : String) (resp : List (Except ClientErr (PageOf EnvNode)))
        (lr : LoadResult) (resp2 : List (Except ClientErr (PageOf EnvNode))),
        loadAllEnvironmentsV4 o r resp = some lr → lr.err.isSome = true →
        loadAllEnvironmentsV4 lr.owner r resp2
          = some { err := none, owner := lr.owner, cursors := [] })
  ∧ (∀ (o : Owner) (r e : String) (resp : List (Except ClientErr (PageOf SecretNode)))
        (lr : LoadResult) (resp2 : List (Except ClientErr (PageOf SecretNode))),
        loadAllEnvSecretsV4 o r e resp = some lr → lr.err.isSome = true →
        loadAllEnvSecretsV4 lr.owner r e resp2
          = some { err := none, owner := lr.owner, cursors := [] })
  ∧ (∀ (o : Owner) (t : Int) (resp : List (Except ClientErr (PageOf TeamRepoNode)))
        (lr : LoadResult) (resp2 : List (Except ClientErr (PageOf TeamRepoNode))),
        loadAllTeamReposV4 o t resp = some lr → lr.err.isSome = true →
        loadAllTeamReposV4 lr.owner t resp2
          = some { err := none, owner := lr.owner, cursors := [] })
  ∧ (∀ (o : Owner) (resp : List (Except ClientErr (PageOf RepoNode)))
        (lr : LoadResult) (resp2 : List (Except ClientErr (PageOf RepoNode))),
        loadAllReposV4 o resp = some lr → lr.err.isSome = true →
        loadAllReposV4 lr.owner resp2
          = some { err := none, owner := lr.owner, cursors := [] }) := by
  refine ⟨?_, ?_, ?_, ?_⟩
  · intro o r resp lr resp2 h _
    obtain ⟨hs, hd⟩ := loadAllEnvironmentsV4_marks h
    exact loadAllEnvironmentsV4_already resp2 hd hs
  · intro o r e resp lr resp2 h _
    obtain ⟨hd, M, hM, hs⟩ := loadAllEnvSecretsV4_marks h
    exact loadAllEnvSecretsV4_already resp2 hd hM hs
  · intro o t resp lr resp2 h _
    obtain ⟨hs, hd⟩ := loadAllTeamReposV4_marks h
    exact loadAllTeamReposV4_already resp2 hd hs
  · intro o resp lr resp2 h _
    exact loadAllReposV4_already resp2 (loadAllReposV4_marks h)

/-- Claim C1, witness for the amended theorem: the concrete failed-load
scenario of the counterexample, driven through the amended theorem. -/
theorem C1_witness :
    loadAllEnvironmentsV4 c1OwnerAfterFail "r" [Except.ok envPage2]
      = some { err := none, owner := c1OwnerAfterFail, cursors := [] } :=
  C1_amended.1 emptyOwner "r" [Except.error (ClientErr.other "boom")]
    { err := some (GoError.failedToLoadEnvs "r" (ClientErr.other "boom"))
    , owner := c1OwnerAfterFail, cursors := [none] }
    [Except.ok envPage2] (by rfl) (by rfl)

/-- Claim C2, counterexample.  The claim says every entity cache's Get
invokes the single-item fallback fetcher on a direct-lookup miss after a
completed bulk load.  On the code, the environment-secret, team-repository
and environment cache Gets fail with their not-found error directly: with
the scope loaded (containing only item `a`), a Get for item `b` returns the
not-found error and the ghost point-query flag is `false` — no point query
was issued, because these functions contain no fallback code at all. -/
theorem C2_counterexample :
    GetEnvSecretFromCache ownerSecretLoaded "r" "e" "b" []
      = some (Except.error (GoError.envSecretNotFound "b" "r" "e"),
          ownerSecretLoaded, false)
  ∧ GetTeamRepoFromCache ownerTeamLoaded 7 "b" []
      = some (Except.error (GoError.teamRepoNotFound 7 "b"), ownerTeamLoaded, false)
  ∧ GetEnvironmentFromCache ownerEnvLoaded "r" "b" []
      = some (Except.error (GoError.envNotFound "b" "r"), ownerEnvLoaded, false) :=
  ⟨rfl, rfl, rfl⟩

/-- Claim C2, amended.  Only the repository cache's Get has a single-item
fallback: on a miss after a completed load it issues the point query and,
on success, inserts the fetched entry under the requested name and returns
it.  The environment, environment-secret and team-repository cache Gets
return their structured not-found error directly on a miss, issuing no
point query (for environments a v3 fallback exists only in the resource
read handler, outside the cache layer). -/
theorem C2_amended :
    (∀ (o : Owner) (name : String) (M : Table String RepoV4Data)
        (listR : List (Except ClientErr (PageOf RepoNode))) (node : RepoNode),
        o.repoCache = some M → M.find? name = none →
        GetRepoFromCache o name listR (Except.ok node)
          = some (Except.ok (repoEntryOfNode node),
              { o with repoCache := some (M.insert name (repoEntryOfNode node)) }, true)
        ∧ repoLookup
            { o with repoCache := some (M.insert name (repoEntryOfNode node)) } name
          = some (repoEntryOfNode node))
  ∧ (∀ (o : Owner) (r x : String) (sub : Table String EnvV4Data)
        (resp : List (Except ClientErr (PageOf EnvNode))),
        envScope o r = some sub → sub.find? x = none →
        GetEnvironmentFromCache o r x resp
          = some (Except.error (GoError.envNotFound x r), o, false))
  ∧ (∀ (o : Owner) (r e x : String) (sub : Table String EnvSecretV4Data)
        (resp : List (Except ClientErr (PageOf SecretNode))),
        secretScope o r e = some sub → sub.find? x = none →
        GetEnvSecretFromCache o r e x resp
          = some (Except.error (GoError.envSecretNotFound x r e), o, false))
  ∧ (∀ (o : Owner) (t : Int) (x : String) (sub : Table String TeamRepoV4Data)
        (resp : List (Except ClientErr (PageOf TeamRepoNode))),
        teamRepoScope o t = some sub → sub.find? x = none →
        GetTeamRepoFromCache o t x resp
          = some (Except.error (GoError.teamRepoNotFound t x), o, false)) := by
  refine ⟨?_, ?_, ?_, ?_⟩
  · intro o name M listR node hM hmiss
    constructor
    · simp [GetRepoFromCache, getRepoLookupStep, hM, hmiss]
    · simp [repoLookup, Table.find?_insert_self]
  · intro o r x sub resp hscope hmiss
    simp only [envScope] at hscope
    simp [GetEnvironmentFromCache, hscope, envLookup, hmiss]
  · intro o r e x sub resp hscope hmiss
    simp only [secretScope] at hscope
    simp [GetEnvSecretFromCache, hscope, secretLookup, hmiss]
  · intro o t x sub resp hscope hmiss
    simp only [teamRepoScope] at hscope
    simp [GetTeamRepoFromCache, hscope, teamRepoLookup, hmiss]

/-- Claim C2, witness for the amended theorem: the repository fallback on a
concrete loaded owner inserts the fetched entry under the requested name. -/
theorem C2_witness :
    GetRepoFromCache ownerRepoLoaded "x" [] (Except.ok repoNodeA)
      = some (Except.ok (repoEntryOfNode repoNodeA), ownerRepoAfterFallback, true)
  ∧ repoLookup ownerRepoAfterFallback "x" = some (repoEntryOfNode repoNodeA) :=
  C2_amended.1 ownerRepoLoaded "x" [("a", repoEntryOfNode repoNodeA)] []
    repoNodeA (by rfl) (by rfl)

/-- Claim C3.  The claim says the check-and-mark of the scope-load guard is
atomic, so N concurrent calls issue exactly one list-query sequence per
scope.  The guard of `loadAllEnvironmentsV4` is a plain presence check
(line 46) followed by a plain write (line 51), unsynchronized (the
`sync.Once` covers only the outer map allocation).  In the interleaving
model: under the schedule where both threads run the check before either
marks, both threads complete and two list-query sequences are issued
against the scope, while the fully sequential schedule issues one — the
claim's load-once property fails precisely because check and mark are not
atomic. -/
theorem C3_race :
    runSchedule [true, false, true, true, false, false]
        { scopeMarked := false, listQueries := 0 } 0 0
      = ({ scopeMarked := true, listQueries := 2 }, 3, 3)
  ∧ runSchedule [true, true, true, false, false, false]
        { scopeMarked := false, listQueries := 0 } 0 0
      = ({ scopeMarked := true, listQueries := 1 }, 3, 3) :=
  ⟨rfl, rfl⟩

/-- Claim C4, counterexample.  The claim says a resource-does-not-exist
response to the fallback point query comes back as a not-found signal, not
as a remote-query error.  On the code, `GetRepoFromCache` wraps every
point-query failure — including resource-does-not-exist — as
`failed to fetch repository ...` (`cache_repos_v4.go:280-282`): on a
concrete loaded owner, a Get for a missing name whose point query answers
resource-does-not-exist returns that wrapped remote-query error, which is
not one of the structured not-found outcomes. -/
theorem C4_counterexample :
    GetRepoFromCache ownerRepoLoaded "x" [] (Except.error ClientErr.resourceDoesNotExist)
      = some (Except.error
          (GoError.failedToFetchRepo "x" ClientErr.resourceDoesNotExist),
          ownerRepoLoaded, true)
  ∧ GoError.isNotFoundSignal
      (GoError.failedToFetchRepo "x" ClientErr.resourceDoesNotExist) = false
  ∧ GoError.isRemoteQueryError
      (GoError.failedToFetchRepo "x" ClientErr.resourceDoesNotExist) = true :=
  ⟨rfl, rfl, rfl⟩

/-- Claim C4, amended.  The repository fallback wraps every point-query
failure, resource-does-not-exist included, into the `failed to fetch
repository` remote-query error; it never produces a structured not-found
signal (the not-found special-casing for environments lives in the v3 read
handler, outside the cache layer). -/
theorem C4_amended :
    ∀ (o : Owner) (name : String) (M : Table String RepoV4Data)
      (listR : List (Except ClientErr (PageOf RepoNode))) (e : ClientErr),
      o.repoCache = some M → M.find? name = none →
      GetRepoFromCache o name listR (Except.error e)
        = some (Except.error (GoError.failedToFetchRepo name e), o, true)
      ∧ (GoError.failedToFetchRepo name e).isNotFoundSignal = false
      ∧ (GoError.failedToFetchRepo name e).isRemoteQueryError = true := by
  intro o name M listR e hM hmiss
  refine ⟨?_, rfl, rfl⟩
  simp [GetRepoFromCache, getRepoLookupStep, hM, hmiss]

/-- Claim C4, witness for the amended theorem at a concrete owner and a
non-not-found client failure. -/
theorem C4_witness :
    GetRepoFromCache ownerRepoLoaded "x" [] (Except.error (ClientErr.other "rate limited"))
      = some (Except.error
          (GoError.failedToFetchRepo "x" (ClientErr.other "rate limited")),
          ownerRepoLoaded, true)
    ∧ (GoError.failedToFetchRepo "x" (ClientErr.other "rate limited")).isNotFoundSignal
        = false
    ∧ (GoError.failedToFetchRepo "x" (ClientErr.other "rate limited")).isRemoteQueryError
        = true :=
  C4_amended ownerRepoLoaded "x" [("a", repoEntryOfNode repoNodeA)] []
    (ClientErr.other "rate limited") (by rfl) (by rfl)

/-- Claim C5.  The pagination loop inserts every record of every delivered
page in page order (the `applyPages` fold), requests each next page with
exactly the previous page's end cursor while `hasNextPage` is true (the
`cursorTrail`), stops at the first page with `hasNextPage = false`, and on
the first page-fetch failure returns that error at once: the failing
response contributes no records, while the folds of the pages already
applied remain in the returned cache.  Stated for the driver `pageLoop`
shared by all four bulk loads (each instantiates `ins` with its per-node
insertion). -/
theorem C5_pagination {τ ν : Type} (ins : τ → ν → τ) (acc : τ) (cur : Option String)
    (ps : List (PageOf ν)) (hps : ∀ p ∈ ps, p.hasNextPage = true) :
    (∀ (e : ClientErr) (rest : List (Except ClientErr (PageOf ν))),
        pageLoop ins acc (ps.map Except.ok ++ Except.error e :: rest) cur
          = some (applyPages ins acc ps, some e, cursorTrail cur ps))
  ∧ (∀ (plast : PageOf ν) (rest : List (Except ClientErr (PageOf ν))),
        plast.hasNextPage = false →
        pageLoop ins acc (ps.map Except.ok ++ Except.ok plast :: rest) cur
          = some (applyPages ins acc (ps ++ [plast]), none, cursorTrail cur ps)) :=
  ⟨fun e rest => pageLoop_error_spec ins e rest ps acc cur hps,
   fun plast rest hlast => pageLoop_success_spec ins plast rest hlast ps acc cur hps⟩

/-- Claim C5, witness: the environments instantiation on a concrete
two-page collection and on a concrete failure after one page. -/
theorem C5_witness :
    pageLoop envInsert [] ([envPage1].map Except.ok ++ Except.ok envPage2 :: []) none
      = some (applyPages envInsert [] ([envPage1] ++ [envPage2]), none,
          cursorTrail none [envPage1])
  ∧ pageLoop envInsert []
        ([envPage1].map Except.ok ++ Except.error (ClientErr.other "boom") :: []) none
      = some (applyPages envInsert [] [envPage1], some (ClientErr.other "boom"),
          cursorTrail none [envPage1]) :=
  ⟨(C5_pagination envInsert [] none [envPage1] (by decide)).2 envPage2 [] (by decide),
   (C5_pagination envInsert [] none [envPage1] (by decide)).1
     (ClientErr.other "boom") []⟩

/-- Claim C6.  Eviction — `RemoveTeamRepoFromCache` and the inline
environment eviction of the delete handler — removes the entry when
present, afterwards the cache has no entry under the evicted key, every
other key is untouched, and when the cache map was never allocated or the
scope never loaded the owner is returned entirely unchanged (the functions
are total: no error, no panic). -/
theorem C6_evict :
    (∀ (o : Owner) (t : Int) (r : String),
        teamRepoLookup (RemoveTeamRepoFromCache o t r) t r = none)
  ∧ (∀ (o : Owner) (t : Int) (r : String) (t2 : Int) (r2 : String),
        ¬ (t2 = t ∧ r2 = r) →
        teamRepoLookup (RemoveTeamRepoFromCache o t r) t2 r2 = teamRepoLookup o t2 r2)
  ∧ (∀ (o : Owner) (t : Int) (r : String), o.teamRepoCache = none →
        RemoveTeamRepoFromCache o t r = o)
  ∧ (∀ (o : Owner) (t : Int) (r : String) (M : Table Int (Table String TeamRepoV4Data)),
        o.teamRepoCache = some M → M.find? t = none →
        RemoveTeamRepoFromCache o t r = o)
  ∧ (∀ (o : Owner) (rp e : String),
        envLookup (removeEnvFromCache o rp e) rp e = none)
  ∧ (∀ (o : Owner) (rp e rp2 e2 : String), ¬ (rp2 = rp ∧ e2 = e) →
        envLookup (removeEnvFromCache o rp e) rp2 e2 = envLookup o rp2 e2)
  ∧ (∀ (o : Owner) (rp e : String), o.envCache = none → removeEnvFromCache o rp e = o)
  ∧ (∀ (o : Owner) (rp e : String) (M : Table String (Table String EnvV4Data)),
        o.envCache = some M → M.find? rp = none → removeEnvFromCache o rp e = o) := by
  refine ⟨?_, ?_, ?_, ?_, ?_, ?_, ?_, ?_⟩
  · intro o t r
    unfold RemoveTeamRepoFromCache
    split
    · rename_i hnone
      simp [teamRepoLookup, hnone, Table.find?]
    · rename_i m hm
      split
      · rename_i hfind
        simp [teamRepoLookup, hm, hfind, Table.find?]
      · rename_i sub hsub
        simp [teamRepoLookup, Table.find?_insert_self, Table.find?_erase_self]
  · intro o t r t2 r2 hne
    unfold RemoveTeamRepoFromCache
    split
    · rfl
    · rename_i m hm
      split
      · rfl
      · rename_i sub hsub
        by_cases ht : t2 = t
        · subst ht
          have hr2 : ¬ r2 = r := fun hh => hne ⟨rfl, hh⟩
          have her := Table.find?_erase_ne sub r r2 (fun hh => hr2 hh.symm)
          simp [teamRepoLookup, hm, hsub, Table.find?_insert_self, her]
        · have hins := Table.find?_insert_ne m t t2 (sub.erase r) (fun hh => ht hh.symm)
          simp [teamRepoLookup, hm, hins]
  · intro o t r h
    simp [RemoveTeamRepoFromCache, h]
  · intro o t r M hM hf
    simp [RemoveTeamRepoFromCache, hM, hf]
  · intro o rp e
    unfold removeEnvFromCache
    split
    · rename_i hnone
      simp [envLookup, hnone, Table.find?]
    · rename_i m hm
      split
      · rename_i hfind
        simp [envLookup, hm, hfind, Table.find?]
      · rename_i sub hsub
        simp [envLookup, Table.find?_insert_self, Table.find?_erase_self]
  · intro o rp e rp2 e2 hne
    unfold removeEnvFromCache
    split
    · rfl
    · rename_i m hm
      split
      · rfl
      · rename_i sub hsub
        by_cases hp : rp2 = rp
        · subst hp
          have he2 : ¬ e2 = e := fun hh => hne ⟨rfl, hh⟩
          have her := Table.find?_erase_ne sub e e2 (fun hh => he2 hh.symm)
          simp [envLookup, hm, hsub, Table.find?_insert_self, her]
        · have hins := Table.find?_insert_ne m rp rp2 (sub.erase e) (fun hh => hp hh.symm)
          simp [envLookup, hm, hins]
  · intro o rp e h
    simp [removeEnvFromCache, h]
  · intro o rp e M hM hf
    simp [removeEnvFromCache, hM, hf]

/-- Claim C6, witness: concrete evictions — removal of a present entry, the
frame on another key, and the untouched-owner cases. -/
theorem C6_witness :
    teamRepoLookup (RemoveTeamRepoFromCache ownerTeamLoaded 7 "a") 7 "a" = none
  ∧ teamRepoLookup (RemoveTeamRepoFromCache ownerTeamLoaded 7 "a") 8 "a"
      = teamRepoLookup ownerTeamLoaded 8 "a"
  ∧ RemoveTeamRepoFromCache emptyOwner 7 "a" = emptyOwner
  ∧ envLookup (removeEnvFromCache ownerEnvLoaded "r" "prod") "r" "prod" = none :=
  ⟨C6_evict.1 ownerTeamLoaded 7 "a",
   C6_evict.2.1 ownerTeamLoaded 7 "a" 8 "a" (by decide),
   C6_evict.2.2.1 emptyOwner 7 "a" rfl,
   C6_evict.2.2.2.2.1 ownerEnvLoaded "r" "prod"⟩

/-- Claim C7.  When the requested item is absent from the bulk-loaded set
of a loaded scope (and — vacuously for these two caches — not produced by
any remote fallback query, since their Gets issue none), Get returns the
structured entity-not-found error, the owner is unchanged, and the cache
still has no entry under the key, so nothing negative is cached and a
later Get can observe a subsequently created item.  Stated for the
environment cache (loaded and cold-load cases) and the environment-secret
cache (loaded case). -/
theorem C7_notfound :
    (∀ (o : Owner) (r x : String) (sub : Table String EnvV4Data)
        (resp : List (Except ClientErr (PageOf EnvNode))),
        envScope o r = some sub → sub.find? x = none →
        GetEnvironmentFromCache o r x resp
          = some (Except.error (GoError.envNotFound x r), o, false)
        ∧ envLookup o r x = none)
  ∧ (∀ (o : Owner) (r e x : String) (sub : Table String EnvSecretV4Data)
        (resp : List (Except ClientErr (PageOf SecretNode))),
        secretScope o r e = some sub → sub.find? x = none →
        GetEnvSecretFromCache o r e x resp
          = some (Except.error (GoError.envSecretNotFound x r e), o, false)
        ∧ secretLookup o r e x = none)
  ∧ (∀ (o : Owner) (r x : String) (resp : List (Except ClientErr (PageOf EnvNode)))
        (lr : LoadResult),
        (envScope o r).isNone = true →
        loadAllEnvironmentsV4 o r resp = some lr → lr.err = none →
        envLookup lr.owner r x = none →
        GetEnvironmentFromCache o r x resp
          = some (Except.error (GoError.envNotFound x r), lr.owner, false)) := by
  refine ⟨?_, ?_, ?_⟩
  · intro o r x sub resp hscope hmiss
    simp only [envScope] at hscope
    constructor
    · simp [GetEnvironmentFromCache, hscope, envLookup, hmiss]
    · simp [envLookup, hscope, hmiss]
  · intro o r e x sub resp hscope hmiss
    simp only [secretScope] at hscope
    constructor
    · simp [GetEnvSecretFromCache, hscope, secretLookup, hmiss]
    · simp [secretLookup, hscope, hmiss]
  · intro o r x resp lr h1 hload herr hmiss
    simp only [envScope] at h1
    simp [GetEnvironmentFromCache, h1, hload, herr, hmiss]

/-- Claim C7, witness: the loaded environment scope `r` of a concrete owner
contains only `prod`; Get of `b` fails not-found and caches nothing. -/
theorem C7_witness :
    GetEnvironmentFromCache ownerEnvLoaded "r" "b" []
      = some (Except.error (GoError.envNotFound "b" "r"), ownerEnvLoaded, false)
    ∧ envLookup ownerEnvLoaded "r" "b" = none :=
  C7_notfound.1 ownerEnvLoaded "r" "b" [("prod", envProd)] [] (by rfl) (by rfl)

/-- Claim C8.  A bulk load for one parent scope writes only under that
scope: for the environment cache, loading repository `rA` leaves the
loaded-state and the entries of every other repository `rB` unchanged
(`envScope` carries both: `isSome` is the loaded-state and the table the
entries); for the environment-secret cache, loading the pair (`rA`, `eA`)
leaves every other pair (`rB`, `eB`) unchanged — including pairs of the
same repository, where only the repository level may be freshly allocated.
This holds on the success and on the error path of the loads. -/
theorem C8_frame :
    (∀ (o : Owner) (rA : String) (resp : List (Except ClientErr (PageOf EnvNode)))
        (lr : LoadResult) (rB : String),
        loadAllEnvironmentsV4 o rA resp = some lr → rB ≠ rA →
        envScope lr.owner rB = envScope o rB)
  ∧ (∀ (o : Owner) (rA eA : String) (resp : List (Except ClientErr (PageOf SecretNode)))
        (lr : LoadResult) (rB eB : String),
        loadAllEnvSecretsV4 o rA eA resp = some lr → ¬ (rB = rA ∧ eB = eA) →
        secretScope lr.owner rB eB = secretScope o rB eB) := by
  constructor
  · intro o rA resp lr rB h hne
    have hAB : rA ≠ rB := fun hh => hne hh.symm
    simp only [loadAllEnvironmentsV4] at h
    split at h
    · have hlr := Option.some.inj h
      subst hlr
      simp [envScope, onceEnvCache_getD]
    · split at h
      · exact absurd h (by simp)
      · split at h <;>
        · have hlr := Option.some.inj h
          subst hlr
          simp [envScope, Table.find?_insert_ne _ rA rB _ hAB, onceEnvCache_getD]
  · intro o rA eA resp lr rB eB h hne
    simp only [loadAllEnvSecretsV4] at h
    split at h <;> split at h
    · -- repository level freshly allocated, yet scope reported present:
      -- impossible, the fresh level is empty
      rename_i hc
      rw [Table.find?_insert_self] at hc
      simp [Table.find?] at hc
    · -- repository level freshly allocated, load path
      rename_i hmissA hc
      have hA : ((onceEnvSecretCache o).envSecretCache.getD []).find? rA = none :=
        Option.isNone_iff_eq_none.mp hmissA
      have hA2 : (o.envSecretCache.getD []).find? rA = none := by
        rw [← onceEnvSecretCache_getD]
        exact hA
      split at h
      · exact absurd h (by simp)
      · split at h <;>
        · have hlr := Option.some.inj h
          subst hlr
          by_cases hr : rB = rA
          · subst hr
            have he : eA ≠ eB := fun hh => hne ⟨rfl, hh.symm⟩
            simp [secretScope, Table.find?_insert_self,
              Table.find?_insert_ne _ eA eB _ he, hA2, Table.find?]
          · have hAB : rA ≠ rB := fun hh => hr hh.symm
            simp [secretScope, Table.find?_insert_ne _ rA rB _ hAB,
              onceEnvSecretCache_getD]
    · -- repository level already present, scope already present: no change
      have hlr := Option.some.inj h
      subst hlr
      simp [secretScope, onceEnvSecretCache_getD]
    · -- repository level already present, load path
      rename_i hpresent hc
      split at h
      · exact absurd h (by simp)
      · split at h <;>
        · have hlr := Option.some.inj h
          subst hlr
          by_cases hr : rB = rA
          · subst hr
            have he : eA ≠ eB := fun hh => hne ⟨rfl, hh.symm⟩
            simp [secretScope, Table.find?_insert_self,
              Table.find?_insert_ne _ eA eB _ he, onceEnvSecretCache_getD]
          · have hAB : rA ≠ rB := fun hh => hr hh.symm
            simp [secretScope, Table.find?_insert_ne _ rA rB _ hAB,
              onceEnvSecretCache_getD]

/-- Claim C8, witness: bulk-loading scope `r2` on an owner whose scope `r`
is already loaded leaves scope `r` intact. -/
theorem C8_witness :
    envScope c8LR.owner "r" = envScope ownerEnvLoaded "r" :=
  C8_frame.1 ownerEnvLoaded "r2" [Except.ok envPage2] c8LR "r" (by rfl) (by decide)

/-- Claim C9.  Every environment entry constructed by the read handler's
single-item fallback path carries `waitTimer = 0` and
`preventSelfReview = false` (the v3 point-query response cannot populate
them, `resource_github_team_repository.go:537-538`), and it is exactly this
defaulted entry that the fallback inserts into the environment cache. -/
theorem C9_fallback_defaults :
    ∀ (o : Owner) (r e : String) (envV3 : EnvV3),
      envLookup (readFallbackInsertEnv o r e envV3) r e = some (envDataFromV3 envV3)
      ∧ (envDataFromV3 envV3).waitTimer = 0
      ∧ (envDataFromV3 envV3).preventSelfReview = false := by
  intro o r e envV3
  refine ⟨?_, rfl, rfl⟩
  simp [readFallbackInsertEnv, envLookup, Table.find?_insert_self]

/-- Claim C10.  The environment delete path evicts only
`envCache[repo][env]`: the environment-secret cache field is untouched, so
a Get for a secret of the deleted environment still answers from the stale
cached entries instead of a not-found outcome. -/
theorem C10_secret_frame :
    (∀ (o : Owner) (r e : String),
        (removeEnvFromCache o r e).envSecretCache = o.envSecretCache)
  ∧ (∀ (o : Owner) (r e s : String) (d : EnvSecretV4Data)
        (resp : List (Except ClientErr (PageOf SecretNode))),
        secretLookup o r e s = some d →
        GetEnvSecretFromCache (removeEnvFromCache o r e) r e s resp
          = some (Except.ok d, removeEnvFromCache o r e, false)) := by
  have hfield : ∀ (o : Owner) (r e : String),
      (removeEnvFromCache o r e).envSecretCache = o.envSecretCache := by
    intro o r e
    unfold removeEnvFromCache
    split
    · rfl
    · split
      · rfl
      · rfl
  refine ⟨hfield, ?_⟩
  intro o r e s d resp hlook
  have hlook2 : secretLookup (removeEnvFromCache o r e) r e s = some d := by
    simpa [secretLookup, hfield o r e] using hlook
  cases hse : ((((removeEnvFromCache o r e).envSecretCache.getD []).find? r).getD
      []).find? e with
  | none =>
    rw [secretLookup, hse] at hlook2
    simp [Table.find?] at hlook2
  | some sub =>
    have hsub : sub.find? s = some d := by
      rw [secretLookup, hse] at hlook2
      simpa using hlook2
    simp [GetEnvSecretFromCache, hse, secretLookup, hsub]

/-- Claim C10, witness: delete environment `e` of repository `r` on an
owner with both caches populated; the previously cached secret `a` is still
served. -/
theorem C10_witness :
    GetEnvSecretFromCache (removeEnvFromCache ownerBoth "r" "e") "r" "e" "a" []
      = some (Except.ok secretA, removeEnvFromCache ownerBoth "r" "e", false) :=
  C10_secret_frame.2 ownerBoth "r" "e" "a" secretA [] (by rfl)
